import Mathlib

/-!
Verification of the Faseeh plugin/extension surface.

The development shallowly embeds the `BasePlugin` implementation
(`src/unnamed/part_003`) and, for the subsystems whose source ships only as
type declarations (plugin manager, capability registries, event bus), models
the behaviour from the specification.  Asynchronous fallible calls are
embedded as values of `Except String α`: an `.error` value stands for a call
that throws or rejects; a function whose result type carries no `Except`
cannot propagate an exception to its caller.
-/

namespace Faseeh

/-- JSON values, the result type of `JSON.parse`. `{}` is `Json.obj []`. -/
inductive Json where
  | null : Json
  | bool : Bool → Json
  | num : Int → Json
  | str : String → Json
  | arr : List Json → Json
  | obj : List (String × Json) → Json

/-- The `{}` literal returned by the data helpers on the empty/failure paths. -/
def Json.emptyObj : Json := Json.obj []

/-- A row of the `pluginData` table (fields the plugin code reads/writes). -/
structure PluginData where
  id : Nat
  pluginId : String
  key : String
  jsonData : String
  libraryItemId : Option String
  deriving Repr, DecidableEq

/-- Payload of `createPluginDataEntry` (the `NewPluginData` DTO). -/
structure NewPluginData where
  pluginId : String
  key : String
  jsonData : String
  libraryItemId : Option String
  deriving Repr, DecidableEq

/-- One behaviour of the `app.storage` facade as observed by `BasePlugin`:
each operation either produces a value (`.ok`) or throws/rejects
(`.error`).  The facade is a black-box collaborator, so the whole record is
universally quantified in the theorems. -/
structure StorageBehavior where
  getPluginDataEntries : String → String → Option String → Except String (List PluginData)
  updatePluginDataEntry : Nat → String → Except String (Option PluginData)
  createPluginDataEntry : NewPluginData → Except String (Option PluginData)
  readPluginDataFile : String → String → Except String (Option String)
  writePluginDataFile : String → String → String → Except String Bool
  deletePluginDataFile : String → String → Except String Bool
  listPluginDataFiles : String → Option String → Except String (List String)

/-- `BasePlugin.loadDataWithContext` (part_003 lines 68-83): fetch the
`data.json` entries, parse the first one, and on any failure or absence
return `{}`.  `parse` is the `JSON.parse` builtin, passed as an oracle. -/
def loadDataWithContext (st : StorageBehavior) (parse : String → Except String Json)
    (pluginId : String) (libraryItemId : Option String) : Json :=
  match st.getPluginDataEntries pluginId "data.json" libraryItemId with
  | Except.error _ => Json.emptyObj
  | Except.ok pluginData =>
    match pluginData with
    | [] => Json.emptyObj
    | e :: _ =>
      match parse e.jsonData with
      | Except.ok v => v
      | Except.error _ => Json.emptyObj

/-- Observable outcome of `saveDataWithContext`: which storage mutation it
performed (or that it swallowed a failure). -/
inductive SaveOutcome where
  | updated : Nat → String → SaveOutcome
  | created : NewPluginData → SaveOutcome
  | failed : SaveOutcome
  deriving Repr, DecidableEq

/-- `BasePlugin.saveDataWithContext` (part_003 lines 90-115): fetch existing
entries, stringify, then update the first entry or create a fresh one; any
thrown error is caught (the function itself never rejects).  `stringify` is
the `JSON.stringify` builtin, passed as an oracle. -/
def saveDataWithContext (st : StorageBehavior) (stringify : Json → String)
    (pluginId : String) (data : Json) (libraryItemId : Option String) : SaveOutcome :=
  match st.getPluginDataEntries pluginId "data.json" libraryItemId with
  | Except.error _ => SaveOutcome.failed
  | Except.ok existingData =>
    let jsonValue := stringify data
    match existingData with
    | e :: _ =>
      match st.updatePluginDataEntry e.id jsonValue with
      | Except.ok _ => SaveOutcome.updated e.id jsonValue
      | Except.error _ => SaveOutcome.failed
    | [] =>
      let dto : NewPluginData :=
        { pluginId := pluginId, key := "data.json", jsonData := jsonValue,
          libraryItemId := libraryItemId }
      match st.createPluginDataEntry dto with
      | Except.ok _ => SaveOutcome.created dto
      | Except.error _ => SaveOutcome.failed

/-- `BasePlugin.loadData` (part_003 lines 51-53): delegate to
`loadDataWithContext` with the `null` library-item scope. -/
def loadData (st : StorageBehavior) (parse : String → Except String Json)
    (pluginId : String) : Json :=
  loadDataWithContext st parse pluginId none

/-- `BasePlugin.saveData` (part_003 lines 59-61): delegate to
`saveDataWithContext` with the `null` library-item scope. -/
def saveData (st : StorageBehavior) (stringify : Json → String)
    (pluginId : String) (data : Json) : SaveOutcome :=
  saveDataWithContext st stringify pluginId data none

/-- `BasePlugin.readDataFile` (part_003 lines 121-128): forward to storage,
catch any thrown error and return `undefined`. -/
def readDataFile (st : StorageBehavior) (pluginId relativePath : String) : Option String :=
  match st.readPluginDataFile pluginId relativePath with
  | Except.ok v => v
  | Except.error _ => none

/-- `BasePlugin.writeDataFile` (part_003 lines 135-142): forward to storage,
catch any thrown error and return `false`. -/
def writeDataFile (st : StorageBehavior) (pluginId relativePath content : String) : Bool :=
  match st.writePluginDataFile pluginId relativePath content with
  | Except.ok v => v
  | Except.error _ => false

/-- `BasePlugin.deleteDataFile` (part_003 lines 148-155): forward to storage,
catch any thrown error and return `false`. -/
def deleteDataFile (st : StorageBehavior) (pluginId relativePath : String) : Bool :=
  match st.deletePluginDataFile pluginId relativePath with
  | Except.ok v => v
  | Except.error _ => false

/-- `BasePlugin.listDataFiles` (part_003 lines 161-168): forward to storage,
catch any thrown error and return `[]`. -/
def listDataFiles (st : StorageBehavior) (pluginId : String)
    (subDirectory : Option String) : List String :=
  match st.listPluginDataFiles pluginId subDirectory with
  | Except.ok v => v
  | Except.error _ => []

/-- A disposer as `BasePlugin` sees it: a side-effecting thunk over an
ambient state `σ` that may also throw.  Calling it yields the state after its
side effects together with a flag telling whether it threw. -/
def Disposer (σ : Type) : Type := σ → σ × Bool

/-- The listener-tracking part of a `BasePlugin` instance
(`private listenerCleaners`, part_003 line 15). -/
structure PluginListeners (σ : Type) where
  listenerCleaners : List (Disposer σ)

/-- The fresh instance state: `listenerCleaners = []`. -/
def PluginListeners.empty (σ : Type) : PluginListeners σ :=
  { listenerCleaners := [] }

/-- `BasePlugin.registerEvent` (part_003 lines 43-45): push the disposer onto
`listenerCleaners`. -/
def registerEvent {σ : Type} (p : PluginListeners σ) (d : Disposer σ) : PluginListeners σ :=
  { listenerCleaners := p.listenerCleaners ++ [d] }

/-- The `for`/`try`/`catch` loop body of `_cleanupListeners` (part_003 lines
175-181): call each disposer in list order; a thrown error is caught, so the
loop continues from the state the disposer left behind. -/
def runCleaners {σ : Type} : List (Disposer σ) → σ → σ
  | [], s => s
  | d :: rest, s => runCleaners rest (d s).1

/-- `BasePlugin._cleanupListeners` (part_003 lines 174-183): run every
registered disposer under `try`/`catch`, then reset `listenerCleaners` to
`[]`. -/
def cleanupListeners {σ : Type} (p : PluginListeners σ) (s : σ) : PluginListeners σ × σ :=
  (PluginListeners.empty σ, runCleaners p.listenerCleaners s)

/-- A concrete disposer that records its identity `i` on an observation trace
and then either returns normally or throws, according to `thr`. -/
def traceDisposer (i : Nat) (thr : Bool) : Disposer (List Nat) :=
  fun t => (t ++ [i], thr)

/-- Register a whole list of disposers through `registerEvent`, left to
right, starting from a fresh instance. -/
def registerAll {σ : Type} (ds : List (Disposer σ)) : PluginListeners σ :=
  ds.foldl registerEvent (PluginListeners.empty σ)

/-! ## Capability registries (content adapters / metadata scrapers)

The registry implementations are not part of the shipped sources (only the
`IContentAdapterRegistry` / `IMetadataScraperRegistry` declarations are), so
the scoring and registration behaviour below is modelled from the
specification, §4.2. -/

/-- Modelled from the spec: a capability registration
(`ContentAdapterInfo` / `MetadataScraperInfo` matching surface): declared
mime types, extensions, url patterns, one boolean capability flag for the
source nature the registry instance cares about, and a tie-breaking
`priority` (default 0, higher wins ties). -/
structure CapabilityRegistration where
  id : String
  supportedMimeTypes : List String
  supportedExtensions : List String
  urlPatterns : List String
  canHandleNature : Bool
  priority : Int
  deriving Repr, DecidableEq

/-- Modelled from the spec: a `FindCriteria` — optional mime type, file
extension and source url of the source, and whether the source has the
nature (pasted text / local file / URL) the registry instance matches on. -/
structure FindCriteria where
  mimeType : Option String
  fileExtension : Option String
  sourceUrl : Option String
  hasNature : Bool
  deriving Repr, DecidableEq

/-- Modelled from the spec: the per-criterion score weights
(`weight_mime`, `weight_ext`, `weight_url`, `weight_capability`). -/
structure ScoreWeights where
  mime : Nat
  ext : Nat
  url : Nat
  capability : Nat
  deriving Repr, DecidableEq

/-- Modelled from the spec, §4.2: the match score of a registration against a
criteria object — `+weight_mime` for an exact mime match, `+weight_ext` for a
case-insensitive extension match, `+weight_url` if some url pattern matches
(`urlMatch` is the regex-matching oracle), `+weight_capability` if the
declared capability flag meets the source's stated nature. -/
def matchScore (w : ScoreWeights) (urlMatch : String → String → Bool)
    (r : CapabilityRegistration) (c : FindCriteria) : Nat :=
  (match c.mimeType with
   | some mt => if r.supportedMimeTypes.contains mt then w.mime else 0
   | none => 0) +
  (match c.fileExtension with
   | some fe => if r.supportedExtensions.any (fun e => e.toLower == fe.toLower) then w.ext else 0
   | none => 0) +
  (match c.sourceUrl with
   | some u => if r.urlPatterns.any (fun p => urlMatch p u) then w.url else 0
   | none => 0) +
  (if r.canHandleNature && c.hasNature then w.capability else 0)

/-- One step of the best-match scan: keep the incumbent unless the candidate
scores positive and beats it on the lexicographic `(score, priority)` pair
(first-registered wins exact ties, per the spec's documented policy). -/
def bestStep (w : ScoreWeights) (urlMatch : String → String → Bool) (c : FindCriteria)
    (best : Option (CapabilityRegistration × Nat)) (r : CapabilityRegistration) :
    Option (CapabilityRegistration × Nat) :=
  let s := matchScore w urlMatch r c
  if s = 0 then best
  else
    match best with
    | none => some (r, s)
    | some (b, sb) =>
      if sb < s ∨ (s = sb ∧ b.priority < r.priority) then some (r, s) else some (b, sb)

/-- Modelled from the spec, §4.2: `findBestMatch` — scan the registrations in
insertion order, exclude zero scores, and return the registration with the
lexicographically greatest `(score, priority)` pair (first registered among
exact ties); `none` when nothing scores positive. -/
def findBestMatch (w : ScoreWeights) (urlMatch : String → String → Bool)
    (regs : List CapabilityRegistration) (c : FindCriteria) :
    Option CapabilityRegistration :=
  (regs.foldl (bestStep w urlMatch c) none).map Prod.fst

/-- Errors surfaced synchronously by the registry operations. -/
inductive RegistryError where
  | duplicateId : RegistryError
  | invalidRegistration : RegistryError
  | notFound : RegistryError
  deriving Repr, DecidableEq

/-- Whether a registration declares at least one matching criterion, the
validity condition `register` checks. -/
def hasMatchingCriterion (r : CapabilityRegistration) : Bool :=
  !r.supportedMimeTypes.isEmpty || !r.supportedExtensions.isEmpty ||
    !r.urlPatterns.isEmpty || r.canHandleNature

/-- Modelled from the spec, §4.2: `register(registration)` — fail with
`DuplicateIdError` if the id is already present, with
`InvalidRegistrationError` if no matching criterion is declared, else append
the registration (insertion order is significant for tie-breaking). -/
def registryRegister (regs : List CapabilityRegistration) (r : CapabilityRegistration) :
    Except RegistryError (List CapabilityRegistration) :=
  if regs.any (fun x => x.id == r.id) then Except.error RegistryError.duplicateId
  else if !(hasMatchingCriterion r) then Except.error RegistryError.invalidRegistration
  else Except.ok (regs ++ [r])

/-! ## Event bus

The `EventBus` implementation is not part of the shipped sources (only the
interface declaration is), so `emit` below is modelled from the
specification, §4.1. -/

/-- Registration state of an event bus: the per-name handlers in global
registration order (pairs of event name and handler id) and the wildcard
handlers in registration order. -/
structure BusState where
  handlers : List (String × Nat)
  wildcard : List Nat
  deriving Repr, DecidableEq

/-- The behaviour of the handlers: invoking handler `hid` in a combined
state (bus registrations plus ambient state `σ`) yields the next state and
whether the handler threw.  Handlers may register or remove handlers — i.e.
rewrite the `BusState` — during dispatch. -/
def HandlerEnv (σ : Type) : Type := Nat → BusState × σ → (BusState × σ) × Bool

/-- The handler ids `emit` snapshots for event `name`: the handlers
registered for `name`, in registration order, followed by the wildcard
handlers. -/
def emitSnapshot (bs : BusState) (name : String) : List Nat :=
  (bs.handlers.filter (fun p => p.1 == name)).map Prod.snd ++ bs.wildcard

/-- Modelled from the spec, §4.1: `emit(name, payload)` — take a snapshot of
the handlers for `name` (registration order, then wildcards) at emit time and
invoke each one synchronously; a throwing handler is caught (its flag is
dropped) and must not prevent later handlers from running; mutations of the
registration tables during dispatch do not affect the snapshot. -/
def emit {σ : Type} (env : HandlerEnv σ) (name : String) (bs : BusState) (s : σ) :
    BusState × σ :=
  (emitSnapshot bs name).foldl (fun st hid => (env hid st).1) (bs, s)

/-- A concrete handler environment for observing dispatch: handler `hid`
appends its id to the trace, rewrites the registration tables by `mutate hid`
(arbitrary registration/removal during dispatch), and throws iff `thr hid`. -/
def traceEnv (mutate : Nat → BusState → BusState) (thr : Nat → Bool) :
    HandlerEnv (List Nat) :=
  fun hid st => ((mutate hid st.1, st.2 ++ [hid]), thr hid)

/-! ## Plugin manager

The `PluginManager` implementation is not part of the shipped sources (only
the `IPluginManager` declaration is), so the load-order computation and
`enablePlugin` below are modelled from the specification, §4.3. -/

/-- A plugin's `manifest.json` contents (the `PluginManifest` interface);
`pluginDependencies` defaults to `[]` when absent. -/
structure PluginManifest where
  id : String
  name : String
  version : String
  minAppVersion : String
  main : String
  pluginDependencies : List String
  description : String
  deriving Repr, DecidableEq

/-- A manifest with the given id and dependency list (the other fields do
not influence load ordering). -/
def mkManifest (id : String) (deps : List String) : PluginManifest :=
  { id := id, name := id, version := "1.0.0", minAppVersion := "1.0.0",
    main := "index.js", pluginDependencies := deps, description := "" }

/-- Modelled from the spec, §4.3: depth-first visit used by the topological
load-order computation — visit a plugin's dependencies before appending the
plugin itself; already-ordered plugins and ids missing from the discovered
set are skipped.  `fuel` bounds the recursion depth. -/
def visitPlugin (discovered : List PluginManifest) (fuel : Nat) (acc : List String)
    (id : String) : List String :=
  match fuel with
  | 0 => acc
  | fuel' + 1 =>
    if acc.contains id then acc
    else
      match discovered.find? (fun m => m.id == id) with
      | none => acc
      | some m =>
        let acc2 := m.pluginDependencies.foldl
          (fun a d => visitPlugin discovered fuel' a d) acc
        if acc2.contains id then acc2 else acc2 ++ [id]

/-- Modelled from the spec, §4.3: the topological load order computed by
`initialize` — every enabled plugin is visited depth-first so that each
dependency is placed strictly before its dependents. -/
def computeLoadOrder (discovered : List PluginManifest) (enabled : List String) :
    List String :=
  enabled.foldl (fun acc id => visitPlugin discovered (discovered.length + 1) acc id) []

/-- The plugin-manager state the enable path touches: the discovered
manifests, the in-memory enabled-set, its persisted copy, the loaded set and
the per-plugin failure records. -/
structure ManagerState where
  discovered : List PluginManifest
  enabledIds : List String
  persistedEnabledIds : List String
  loadedIds : List String
  failed : List (String × String)
  isInitialized : Bool
  deriving Repr, DecidableEq

/-- Errors surfaced by the plugin-manager operations. -/
inductive ManagerError where
  | notInstalled : ManagerError
  deriving Repr, DecidableEq

/-- Modelled from the spec, §4.3: `enablePlugin(id)` — fail with
`NotInstalledError` when `id` is not discovered (state untouched); otherwise
add `id` to the enabled-set, persist that set immediately, and only then, if
the manager is already initialized, attempt the load (`loadOk` abstracts
whether the load procedure succeeds); a failed load marks the plugin failed
but never touches the enabled-set or its persisted copy. -/
def enablePlugin (loadOk : String → Bool) (st : ManagerState) (id : String) :
    ManagerState × Option ManagerError :=
  if !(st.discovered.any (fun m => m.id == id)) then
    (st, some ManagerError.notInstalled)
  else
    let enabled2 := if st.enabledIds.contains id then st.enabledIds else st.enabledIds ++ [id]
    let st2 := { st with enabledIds := enabled2, persistedEnabledIds := enabled2 }
    let st3 :=
      if st2.isInitialized then
        if loadOk id then { st2 with loadedIds := st2.loadedIds ++ [id] }
        else { st2 with failed := st2.failed ++ [(id, "load failed")] }
      else st2
    (st3, none)

/-! ## Concrete sample data used by the witnesses -/

/-- A storage behaviour every one of whose operations throws. -/
def stThrowing : StorageBehavior :=
  { getPluginDataEntries := fun _ _ _ => Except.error "db down",
    updatePluginDataEntry := fun _ _ => Except.error "db down",
    createPluginDataEntry := fun _ => Except.error "db down",
    readPluginDataFile := fun _ _ => Except.error "fs down",
    writePluginDataFile := fun _ _ _ => Except.error "fs down",
    deletePluginDataFile := fun _ _ => Except.error "fs down",
    listPluginDataFiles := fun _ _ => Except.error "fs down" }

/-- A sample stored `data.json` row whose payload is the JSON text `7`. -/
def sampleEntry : PluginData :=
  { id := 1, pluginId := "p", key := "data.json", jsonData := "7", libraryItemId := none }

/-- A storage behaviour holding exactly `sampleEntry` for every query. -/
def stWithEntry : StorageBehavior :=
  { stThrowing with getPluginDataEntries := fun _ _ _ => Except.ok [sampleEntry] }

/-- A parse oracle recognising exactly the text `7`. -/
def sampleParse : String → Except String Json :=
  fun s => if s == "7" then Except.ok (Json.num 7) else Except.error "parse error"

/-- Sample score weights for the registry witnesses. -/
def sampleWeights : ScoreWeights := { mime := 3, ext := 2, url := 4, capability := 1 }

/-- A regex oracle that matches nothing (no witness exercises url patterns). -/
def noUrlMatch : String → String → Bool := fun _ _ => false

/-- Witness registration: matches `text/plain`, priority 5. -/
def entryPr5 : CapabilityRegistration :=
  { id := "adapter-five", supportedMimeTypes := ["text/plain"], supportedExtensions := [],
    urlPatterns := [], canHandleNature := false, priority := 5 }

/-- Witness registration: matches `text/plain`, priority 10. -/
def entryPr10 : CapabilityRegistration :=
  { id := "adapter-ten", supportedMimeTypes := ["text/plain"], supportedExtensions := [],
    urlPatterns := [], canHandleNature := false, priority := 10 }

/-- Witness criteria: a pasted `text/plain` source with no url or extension. -/
def plainTextCriteria : FindCriteria :=
  { mimeType := some "text/plain", fileExtension := none, sourceUrl := none, hasNature := false }

/-- Witness criteria matching no declared capability at all. -/
def blankCriteria : FindCriteria :=
  { mimeType := none, fileExtension := none, sourceUrl := none, hasNature := false }

/-- A manager state with one discovered plugin `"alpha"` and nothing enabled. -/
def sampleManager : ManagerState :=
  { discovered := [mkManifest "alpha" []], enabledIds := [], persistedEnabledIds := [],
    loadedIds := [], failed := [], isInitialized := true }

/-- Invariant of the best-match scan: over the registrations seen so far, an
empty accumulator means nothing scored positive, and a non-empty accumulator
holds a seen registration carrying its own positive score that is
lexicographically `(score, priority)`-maximal among the positive scorers
seen. -/
def BestInv (w : ScoreWeights) (um : String → String → Bool) (c : FindCriteria)
    (l : List CapabilityRegistration) : Option (CapabilityRegistration × Nat) → Prop
  | none => ∀ r' ∈ l, matchScore w um r' c = 0
  | some (b, sb) =>
      b ∈ l ∧ sb = matchScore w um b c ∧ 0 < sb ∧
        ∀ r' ∈ l, 0 < matchScore w um r' c →
          matchScore w um r' c < sb ∨
            (matchScore w um r' c = sb ∧ r'.priority ≤ b.priority)

/-! ## Theorems -/

/-- C9: for every plugin instance (storage behaviour, oracles, plugin id and
data value), `loadData()` is extensionally equal to
`loadDataWithContext(null)` and `saveData(data)` is extensionally equal to
`saveDataWithContext(data, null)`: the context-free entry points are pure
delegations with the null library-item scope. -/
theorem loadData_saveData_delegate (st : StorageBehavior)
    (parse : String → Except String Json) (stringify : Json → String)
    (pluginId : String) (data : Json) :
    loadData st parse pluginId = loadDataWithContext st parse pluginId none ∧
      saveData st stringify pluginId data = saveDataWithContext st stringify pluginId data none :=
  ⟨rfl, rfl⟩

/-- C8: the file-data helpers never reject — whatever the underlying storage
does, `readDataFile` returns `undefined` (`none`) when the storage call
throws and the storage's value when it succeeds, `writeDataFile` and
`deleteDataFile` return `false` on a throw, and `listDataFiles` returns `[]`
on a throw; no exception reaches the caller (the result types carry no
error case at all). -/
theorem dataFileHelpers_never_reject (st : StorageBehavior)
    (pluginId relativePath content : String) (subDirectory : Option String) :
    (∀ err, st.readPluginDataFile pluginId relativePath = Except.error err →
      readDataFile st pluginId relativePath = none) ∧
    (∀ v, st.readPluginDataFile pluginId relativePath = Except.ok v →
      readDataFile st pluginId relativePath = v) ∧
    (∀ err, st.writePluginDataFile pluginId relativePath content = Except.error err →
      writeDataFile st pluginId relativePath content = false) ∧
    (∀ v, st.writePluginDataFile pluginId relativePath content = Except.ok v →
      writeDataFile st pluginId relativePath content = v) ∧
    (∀ err, st.deletePluginDataFile pluginId relativePath = Except.error err →
      deleteDataFile st pluginId relativePath = false) ∧
    (∀ v, st.deletePluginDataFile pluginId relativePath = Except.ok v →
      deleteDataFile st pluginId relativePath = v) ∧
    (∀ err, st.listPluginDataFiles pluginId subDirectory = Except.error err →
      listDataFiles st pluginId subDirectory = []) ∧
    (∀ v, st.listPluginDataFiles pluginId subDirectory = Except.ok v →
      listDataFiles st pluginId subDirectory = v) := by
  refine ⟨?_, ?_, ?_, ?_, ?_, ?_, ?_, ?_⟩ <;> intro x h <;>
    simp [readDataFile, writeDataFile, deleteDataFile, listDataFiles, h]

/-- Witness for C8: under the all-throwing storage behaviour the four
helpers return `none`, `false`, `false` and `[]`. -/
theorem dataFileHelpers_never_reject_witness :
    readDataFile stThrowing "p" "a.txt" = none ∧
      writeDataFile stThrowing "p" "a.txt" "hi" = false ∧
      deleteDataFile stThrowing "p" "a.txt" = false ∧
      listDataFiles stThrowing "p" none = [] := by
  have h := dataFileHelpers_never_reject stThrowing "p" "a.txt" "hi" none
  exact ⟨h.1 "fs down" rfl, h.2.2.1 "fs down" rfl, h.2.2.2.2.1 "fs down" rfl,
    h.2.2.2.2.2.2.1 "fs down" rfl⟩

/-- C10: `loadDataWithContext` never rejects — it returns the JSON-parse of
the first stored `data.json` entry when one exists and parsing succeeds, and
`{}` when the storage call throws, no entry exists, or parsing fails (the
result type carries no error case at all). -/
theorem loadDataWithContext_spec (st : StorageBehavior)
    (parse : String → Except String Json) (pluginId : String)
    (libraryItemId : Option String) :
    (∀ err, st.getPluginDataEntries pluginId "data.json" libraryItemId = Except.error err →
      loadDataWithContext st parse pluginId libraryItemId = Json.emptyObj) ∧
    (st.getPluginDataEntries pluginId "data.json" libraryItemId = Except.ok [] →
      loadDataWithContext st parse pluginId libraryItemId = Json.emptyObj) ∧
    (∀ e rest,
      st.getPluginDataEntries pluginId "data.json" libraryItemId = Except.ok (e :: rest) →
      (∀ v, parse e.jsonData = Except.ok v →
        loadDataWithContext st parse pluginId libraryItemId = v) ∧
      (∀ err, parse e.jsonData = Except.error err →
        loadDataWithContext st parse pluginId libraryItemId = Json.emptyObj)) := by
  refine ⟨fun err h => ?_, fun h => ?_, fun e rest h => ⟨fun v hv => ?_, fun err he => ?_⟩⟩ <;>
    simp [loadDataWithContext, h, *]

/-- Witness for C10: with one stored entry whose payload parses to the JSON
number `7`, `loadDataWithContext` returns that value; under the throwing
storage it returns `{}`. -/
theorem loadDataWithContext_spec_witness :
    loadDataWithContext stWithEntry sampleParse "p" none = Json.num 7 ∧
      loadDataWithContext stThrowing sampleParse "p" none = Json.emptyObj :=
  ⟨((loadDataWithContext_spec stWithEntry sampleParse "p" none).2.2
      sampleEntry [] rfl).1 (Json.num 7) rfl,
    (loadDataWithContext_spec stThrowing sampleParse "p" none).1 "db down" rfl⟩

/-- `registerEvent` accumulates disposers in registration order. -/
theorem registerAll_cleaners {σ : Type} (ds : List (Disposer σ)) (p : PluginListeners σ) :
    (ds.foldl registerEvent p).listenerCleaners = p.listenerCleaners ++ ds := by
  induction ds generalizing p with
  | nil => simp
  | cons d rest ih => simp [registerEvent, ih]

/-- Running the cleanup loop over trace-recording disposers appends exactly
their identities, in list order, whatever the throw flags are. -/
theorem runCleaners_trace (specs : List (Nat × Bool)) (t : List Nat) :
    runCleaners (specs.map (fun p => traceDisposer p.1 p.2)) t = t ++ specs.map Prod.fst := by
  induction specs generalizing t with
  | nil => simp [runCleaners]
  | cons p rest ih => simp [runCleaners, traceDisposer, ih]

/-- C2: for every sequence of disposers passed to `registerEvent` (here
disposers that record their identity and then throw or not, per their flag),
`_cleanupListeners` calls each registered disposer exactly once, in the exact
order they were registered — the trace extends by precisely the identities
in registration order — a throwing disposer never prevents a later one from
running (the throw flags do not appear in the result), and the cleaner list
is reset afterwards. -/
theorem cleanupListeners_in_order_once (specs : List (Nat × Bool)) (t : List Nat) :
    (cleanupListeners (registerAll (specs.map (fun p => traceDisposer p.1 p.2))) t).2 =
        t ++ specs.map Prod.fst ∧
      (cleanupListeners (registerAll (specs.map (fun p => traceDisposer p.1 p.2))) t).1.listenerCleaners = [] := by
  constructor
  · show runCleaners (registerAll (specs.map (fun p => traceDisposer p.1 p.2))).listenerCleaners t = _
    rw [registerAll, registerAll_cleaners]
    simpa [PluginListeners.empty] using runCleaners_trace specs t
  · rfl

/-- Folding the trace-environment dispatch step over any list of handler ids
appends exactly those ids to the trace, whatever the registration mutations
and throw flags do. -/
theorem foldl_traceEnv (mutate : Nat → BusState → BusState) (thr : Nat → Bool)
    (l : List Nat) (bs : BusState) (t : List Nat) :
    (l.foldl (fun st hid => ((traceEnv mutate thr) hid st).1) (bs, t)).2 = t ++ l := by
  induction l generalizing bs t with
  | nil => simp
  | cons hid rest ih =>
    rw [List.foldl_cons]
    have hstep : ((traceEnv mutate thr) hid (bs, t)).1 = (mutate hid bs, t ++ [hid]) := rfl
    rw [hstep, ih]
    simp

/-- C7: `emit` invokes exactly the handlers registered for the event name at
the moment `emit` is called, in registration order, then the wildcard
handlers — each exactly once, as witnessed by the trace — and neither a
throwing handler (arbitrary `thr`) nor a handler that registers or removes
handlers for the same event during dispatch (arbitrary `mutate` rewriting of
the registration tables) skips, repeats or aborts any other handler of that
emission; no failure propagates to the emitter. -/
theorem emit_dispatch_exact (mutate : Nat → BusState → BusState) (thr : Nat → Bool)
    (name : String) (bs : BusState) (t : List Nat) :
    (emit (traceEnv mutate thr) name bs t).2 =
      t ++ ((bs.handlers.filter (fun p => p.1 == name)).map Prod.snd ++ bs.wildcard) := by
  show ((emitSnapshot bs name).foldl (fun st hid => ((traceEnv mutate thr) hid st).1) (bs, t)).2 = _
  rw [foldl_traceEnv, emitSnapshot]

/-- C4: for every registry state, registering an id already present fails
with the duplicate-id error — surfacing the error before any mutation, so
the registry mapping is unchanged — while registering an id not present
never raises that error (spec-modelled registry). -/
theorem register_duplicate_id (regs : List CapabilityRegistration)
    (r : CapabilityRegistration) :
    ((∃ x ∈ regs, x.id = r.id) →
        registryRegister regs r = Except.error RegistryError.duplicateId) ∧
      ((∀ x ∈ regs, x.id ≠ r.id) →
        registryRegister regs r ≠ Except.error RegistryError.duplicateId) := by
  constructor
  · rintro ⟨x, hx, hid⟩
    have hany : regs.any (fun x => x.id == r.id) = true :=
      List.any_eq_true.mpr ⟨x, hx, by simpa using hid⟩
    simp [registryRegister, hany]
  · intro h
    have hany : regs.any (fun x => x.id == r.id) = false := by
      simpa [List.any_eq_false] using h
    cases hcrit : hasMatchingCriterion r <;> simp [registryRegister, hany, hcrit]

/-- Witness for C4: with `entryPr5` registered, registering it again is
rejected as a duplicate, and registering the distinct-id `entryPr10` is
not. -/
theorem register_duplicate_id_witness :
    registryRegister [entryPr5] entryPr5 = Except.error RegistryError.duplicateId ∧
      registryRegister [entryPr5] entryPr10 ≠ Except.error RegistryError.duplicateId :=
  ⟨(register_duplicate_id [entryPr5] entryPr5).1 ⟨entryPr5, by simp, rfl⟩,
    (register_duplicate_id [entryPr5] entryPr10).2 (by decide)⟩

/-- The best-match scan never leaves `none` unless every scanned
registration scored zero. -/
theorem foldl_bestStep_none (w : ScoreWeights) (um : String → String → Bool)
    (c : FindCriteria) (regs : List CapabilityRegistration)
    (h : ∀ r ∈ regs, matchScore w um r c = 0) :
    regs.foldl (bestStep w um c) none = none := by
  induction regs with
  | nil => rfl
  | cons r rest ih =>
    have hr : matchScore w um r c = 0 := h r (by simp)
    rw [List.foldl_cons]
    have hstep : bestStep w um c none r = none := by simp [bestStep, hr]
    rw [hstep]
    exact ih (fun x hx => h x (by simp [hx]))

/-- C5: for every registry state and criteria under which no registration
attains a positive match score (the empty registry included),
`findBestMatch` returns the no-match result `none` — an ordinary value, not
an error (the result type carries no error case at all). -/
theorem findBestMatch_no_match (w : ScoreWeights) (um : String → String → Bool)
    (regs : List CapabilityRegistration) (c : FindCriteria)
    (h : ∀ r ∈ regs, matchScore w um r c = 0) :
    findBestMatch w um regs c = none := by
  rw [findBestMatch, foldl_bestStep_none w um c regs h]
  rfl

/-- Witness for C5: against the blank criteria (no mime, extension or url,
nature flag false) nothing scores, and the scan of a non-empty registry
returns the no-match result. -/
theorem findBestMatch_no_match_witness :
    findBestMatch sampleWeights noUrlMatch [entryPr5, entryPr10] blankCriteria = none :=
  findBestMatch_no_match sampleWeights noUrlMatch [entryPr5, entryPr10] blankCriteria
    (fun r _ => by simp [matchScore, blankCriteria])

/-- C6: for every manager state and load outcome, `enablePlugin(id)` on an
id not in the discovered set fails with `NotInstalledError` leaving the
state (so the enabled-set) unchanged, while on a discovered id it succeeds,
adds the id to the enabled-set, and persists that set immediately — the
persisted copy equals the enabled-set whether or not the subsequent load
succeeds (spec-modelled manager). -/
theorem enablePlugin_spec (loadOk : String → Bool) (st : ManagerState) (id : String) :
    ((∀ m ∈ st.discovered, m.id ≠ id) →
        enablePlugin loadOk st id = (st, some ManagerError.notInstalled)) ∧
      ((∃ m ∈ st.discovered, m.id = id) →
        (enablePlugin loadOk st id).2 = none ∧
          id ∈ (enablePlugin loadOk st id).1.enabledIds ∧
          (enablePlugin loadOk st id).1.persistedEnabledIds =
            (enablePlugin loadOk st id).1.enabledIds) := by
  constructor
  · intro h
    have hany : st.discovered.any (fun m => m.id == id) = false := by
      simpa [List.any_eq_false] using h
    simp [enablePlugin, hany]
  · rintro ⟨m, hm, hid⟩
    have hany : st.discovered.any (fun m => m.id == id) = true :=
      List.any_eq_true.mpr ⟨m, hm, by simpa using hid⟩
    refine ⟨?_, ?_, ?_⟩ <;>
        simp only [enablePlugin, hany, Bool.not_true, Bool.false_eq_true, if_false] <;>
        split_ifs <;>
        simp_all [List.mem_append, List.elem_eq_mem]

/-- Witness for C6: enabling the discovered `"alpha"` with a succeeding load
adds it to the enabled-set and persists it; enabling the undiscovered
`"missing"` fails with `NotInstalledError` and leaves the state untouched. -/
theorem enablePlugin_spec_witness :
    (enablePlugin (fun _ => true) sampleManager "alpha").2 = none ∧
      "alpha" ∈ (enablePlugin (fun _ => true) sampleManager "alpha").1.enabledIds ∧
      enablePlugin (fun _ => true) sampleManager "missing" =
        (sampleManager, some ManagerError.notInstalled) := by
  have h1 := (enablePlugin_spec (fun _ => true) sampleManager "alpha").2
    ⟨mkManifest "alpha" [], by simp [sampleManager], rfl⟩
  exact ⟨h1.1, h1.2.1,
    (enablePlugin_spec (fun _ => true) sampleManager "missing").1 (by decide)⟩

/-- One scan step preserves the best-match invariant. -/
theorem bestStep_preserves_inv (w : ScoreWeights) (um : String → String → Bool)
    (c : FindCriteria) (l : List CapabilityRegistration)
    (acc : Option (CapabilityRegistration × Nat)) (r : CapabilityRegistration)
    (h : BestInv w um c l acc) : BestInv w um c (l ++ [r]) (bestStep w um c acc r) := by
  by_cases hs : matchScore w um r c = 0
  · have hstep : bestStep w um c acc r = acc := by simp [bestStep, hs]
    rw [hstep]
    cases acc with
    | none =>
      intro r' hr'
      rcases List.mem_append.mp hr' with h1 | h1
      · exact h r' h1
      · rw [List.mem_singleton.mp h1]; exact hs
    | some p =>
      obtain ⟨b, sb⟩ := p
      obtain ⟨hb1, hb2, hb3, hb4⟩ := h
      refine ⟨List.mem_append_left _ hb1, hb2, hb3, ?_⟩
      intro r' hr' hp
      rcases List.mem_append.mp hr' with h1 | h1
      · exact hb4 r' h1 hp
      · rw [List.mem_singleton.mp h1] at hp; omega
  · have hpos : 0 < matchScore w um r c := Nat.pos_of_ne_zero hs
    cases acc with
    | none =>
      have hstep : bestStep w um c none r = some (r, matchScore w um r c) := by
        simp [bestStep, hs]
      rw [hstep]
      refine ⟨List.mem_append_right _ (List.mem_singleton.mpr rfl), rfl, hpos, ?_⟩
      intro r' hr' hp
      rcases List.mem_append.mp hr' with h1 | h1
      · have := h r' h1; omega
      · rw [List.mem_singleton.mp h1]; omega
    | some p =>
      obtain ⟨b, sb⟩ := p
      obtain ⟨hb1, hb2, hb3, hb4⟩ := h
      by_cases hcmp : sb < matchScore w um r c ∨
          (matchScore w um r c = sb ∧ b.priority < r.priority)
      · have hstep : bestStep w um c (some (b, sb)) r = some (r, matchScore w um r c) := by
          simp [bestStep, hs, hcmp]
        rw [hstep]
        refine ⟨List.mem_append_right _ (List.mem_singleton.mpr rfl), rfl, hpos, ?_⟩
        intro r' hr' hp
        rcases List.mem_append.mp hr' with h1 | h1
        · have hold := hb4 r' h1 hp
          rcases hcmp with hlt | ⟨heq, hpr⟩
          · omega
          · rcases hold with hlt' | ⟨heq', hpr'⟩
            · omega
            · right; constructor
              · omega
              · calc r'.priority ≤ b.priority := hpr'
                  _ ≤ r.priority := le_of_lt hpr
        · rw [List.mem_singleton.mp h1]; omega
      · have hstep : bestStep w um c (some (b, sb)) r = some (b, sb) := by
          simp only [bestStep, hs, if_false]
          rw [if_neg hcmp]
        rw [hstep]
        refine ⟨List.mem_append_left _ hb1, hb2, hb3, ?_⟩
        intro r' hr' hp
        rcases List.mem_append.mp hr' with h1 | h1
        · exact hb4 r' h1 hp
        · push_neg at hcmp
          rw [List.mem_singleton.mp h1]
          rcases Nat.lt_or_ge (matchScore w um r c) sb with hlt | hge
          · exact Or.inl hlt
          · have heq : matchScore w um r c = sb := le_antisymm hcmp.1 hge
            exact Or.inr ⟨heq, hcmp.2 heq⟩

/-- The whole scan preserves the best-match invariant. -/
theorem foldl_bestStep_inv (w : ScoreWeights) (um : String → String → Bool)
    (c : FindCriteria) (regs : List CapabilityRegistration) :
    ∀ (l : List CapabilityRegistration) (acc : Option (CapabilityRegistration × Nat)),
      BestInv w um c l acc → BestInv w um c (l ++ regs) (regs.foldl (bestStep w um c) acc) := by
  induction regs with
  | nil => intro l acc h; simpa using h
  | cons r rest ih =>
    intro l acc h
    have h2 := bestStep_preserves_inv w um c l acc r h
    have h3 := ih (l ++ [r]) (bestStep w um c acc r) h2
    rw [List.foldl_cons]
    simpa [List.append_assoc] using h3

/-- C3: `findBestMatch` selects a registration maximizing the
`(score, priority)` pair lexicographically over all positive-scoring
registrations — every returned registration is registered, scores positive,
and for every other positive-scoring registration either its score is
strictly lower, or the scores tie and its declared priority is no higher;
in particular among two identically scoring entries the higher-priority one
is selected (spec-modelled registry). -/
theorem findBestMatch_lex_optimal (w : ScoreWeights) (um : String → String → Bool)
    (regs : List CapabilityRegistration) (c : FindCriteria)
    (r : CapabilityRegistration) (h : findBestMatch w um regs c = some r) :
    r ∈ regs ∧ 0 < matchScore w um r c ∧
      ∀ r' ∈ regs, 0 < matchScore w um r' c →
        matchScore w um r' c < matchScore w um r c ∨
          (matchScore w um r' c = matchScore w um r c ∧ r'.priority ≤ r.priority) := by
  have hinv := foldl_bestStep_inv w um c regs [] none (by intro r' hr'; cases hr')
  rw [List.nil_append] at hinv
  rw [findBestMatch] at h
  cases hfold : regs.foldl (bestStep w um c) none with
  | none => rw [hfold] at h; cases h
  | some p =>
    obtain ⟨b, sb⟩ := p
    rw [hfold] at h hinv
    have hbr : b = r := by simpa using h
    obtain ⟨hb1, hb2, hb3, hb4⟩ := hinv
    subst hbr
    subst hb2
    exact ⟨hb1, hb3, hb4⟩

/-- Witness for C3: two registrations with identical score on a
`text/plain` criteria and priorities 5 and 10 — the priority-10 entry is
returned, and it is maximal in the claimed sense. -/
theorem findBestMatch_lex_optimal_witness :
    findBestMatch sampleWeights noUrlMatch [entryPr5, entryPr10] plainTextCriteria =
        some entryPr10 ∧
      0 < matchScore sampleWeights noUrlMatch entryPr10 plainTextCriteria :=
  ⟨by decide,
    (findBestMatch_lex_optimal sampleWeights noUrlMatch [entryPr5, entryPr10]
      plainTextCriteria entryPr10 (by decide)).2.1⟩

/-- Step equation of the depth-first visit at positive fuel. -/
theorem visitPlugin_succ (d : List PluginManifest) (n : Nat) (acc : List String)
    (id : String) :
    visitPlugin d (n + 1) acc id =
      if acc.contains id then acc
      else
        match d.find? (fun m => m.id == id) with
        | none => acc
        | some m =>
          let acc2 := m.pluginDependencies.foldl (fun a dep => visitPlugin d n a dep) acc
          if acc2.contains id then acc2 else acc2 ++ [id] := by
  rw [visitPlugin]

/-- C1: plugin load order respects dependency edges — for every dependency
chain where plugin `a` depends on `b` and `b` depends on `c`, with `b` and
`c` discovered, enabling only `a` makes the manager's computed topological
load order `[c, b, a]`: `c` loads first, then `b`, then `a`, each dependency
strictly before its dependent (spec-modelled manager). -/
theorem dependency_chain_load_order (a b c : String)
    (hab : a ≠ b) (hac : a ≠ c) (hbc : b ≠ c) :
    computeLoadOrder [mkManifest a [b], mkManifest b [c], mkManifest c []] [a] =
      [c, b, a] := by
  have hab' : (a == b) = false := by simp [hab]
  have hac' : (a == c) = false := by simp [hac]
  have hbc' : (b == c) = false := by simp [hbc]
  set d : List PluginManifest := [mkManifest a [b], mkManifest b [c], mkManifest c []]
    with hd
  have hfc : d.find? (fun m => m.id == c) = some (mkManifest c []) := by
    simp [hd, mkManifest, List.find?, hac', hbc']
  have hfb : d.find? (fun m => m.id == b) = some (mkManifest b [c]) := by
    simp [hd, mkManifest, List.find?, hab']
  have hfa : d.find? (fun m => m.id == a) = some (mkManifest a [b]) := by
    simp [hd, mkManifest, List.find?]
  have hvc : visitPlugin d 2 [] c = [c] := by
    rw [visitPlugin_succ]
    simp [hfc, mkManifest]
  have hvb : visitPlugin d 3 [] b = [c, b] := by
    rw [visitPlugin_succ]
    simp [hfb, mkManifest, hvc, hbc', hbc]
  have hva : visitPlugin d 4 [] a = [c, b, a] := by
    rw [visitPlugin_succ]
    simp [hfa, mkManifest, hvb, hab', hac', hab, hac]
  show visitPlugin d (d.length + 1) [] a = [c, b, a]
  simpa [hd] using hva

/-- Witness for C1: the concrete chain `pa → pb → pc` with only `pa`
enabled loads in the order `pc`, `pb`, `pa`. -/
theorem dependency_chain_load_order_witness :
    computeLoadOrder [mkManifest "pa" ["pb"], mkManifest "pb" ["pc"], mkManifest "pc" []]
        ["pa"] = ["pc", "pb", "pa"] :=
  dependency_chain_load_order "pa" "pb" "pc" (by decide) (by decide) (by decide)

end Faseeh
